import Mathlib

/-!
Shallow embedding of the NGMotherLine subtitle pipeline core
(src/audio/vad.py, src/subtitle/generator.py, src/core/pipeline.py).

Python floats are modelled as rationals (ℚ), Python strings as `String`,
`None`-able strings as `Option String`, and Python exceptions as an
explicit `Except PyError` result.  While-loops are modelled by
fuel-indexed recursion, with the fuel chosen large enough that the loop
runs to completion (proved where a claim needs it).
-/

/-- Python truthiness of an optional string: `None` and the empty string
are falsy, every other string is truthy. -/
def pyTruthy : Option String → Bool
  | none => false
  | some s => !s.isEmpty

/-- Python `str.strip()` with no argument: remove whitespace from both
ends of the string, modelled structurally over the character list. -/
def pyStrip (s : String) : String :=
  String.mk (((s.data.dropWhile Char.isWhitespace).reverse.dropWhile Char.isWhitespace).reverse)

/-- Python exception values thrown or caught by the pipeline code. -/
inductive PyError where
  | typeError (msg : String)
  | runtimeError (msg : String)
  | fileNotFoundError (msg : String)
  | valueError (msg : String)
deriving DecidableEq

/-- `str(e)` of a Python exception: its message. -/
def pyErrStr : PyError → String
  | .typeError m => m
  | .runtimeError m => m
  | .fileNotFoundError m => m
  | .valueError m => m

/-! ## Speech-span segmenter (src/audio/vad.py) -/

/-- Well-formedness of a list of speech spans over audio of duration `D`:
every span satisfies `0 ≤ start < end ≤ D`, the spans are pairwise
non-overlapping and sorted (strictly) by start. -/
def SpansWF (D : ℚ) (l : List (ℚ × ℚ)) : Prop :=
  (∀ p ∈ l, 0 ≤ p.1 ∧ p.1 < p.2 ∧ p.2 ≤ D) ∧
  l.Pairwise (fun p q => p.2 ≤ q.1) ∧
  l.Pairwise (fun p q => p.1 < q.1)

/-- The common while-loop of `VADSegmenter._split_long_segment`
(vad.py lines 218-226) and `VADSegmenter._segment_fixed` (lines 206-213):
starting at `cur`, repeatedly emit the window
`(cur, min (cur + step) stop)` and advance to its end while `cur < stop`.
`fuel` bounds the number of iterations; callers pass enough fuel for the
loop to terminate on its own (see `chunkLoop_covers`). -/
def chunkLoop (step stop : ℚ) : ℚ → ℕ → List (ℚ × ℚ)
  | _, 0 => []
  | cur, fuel + 1 =>
    if cur < stop then
      (cur, min (cur + step) stop) :: chunkLoop step stop (min (cur + step) stop) fuel
    else []

/-- Fuel sufficient for `chunkLoop step stop lo`: one more than
`⌈(stop - lo) / step⌉` iterations. -/
def chunkFuel (step lo stop : ℚ) : ℕ :=
  (⌈(stop - lo) / step⌉).toNat + 1

/-- `VADSegmenter._split_long_segment` (vad.py lines 216-226): split the
span `[start_time, end_time)` into consecutive pieces of at most
`max_speech_duration` seconds. -/
def split_long_segment (max_speech_duration start_time end_time : ℚ) : List (ℚ × ℚ) :=
  chunkLoop max_speech_duration end_time start_time
    (chunkFuel max_speech_duration start_time end_time)

/-- `VADSegmenter._segment_fixed` (vad.py lines 201-214): slice the audio
of `audioLen` samples at `sample_rate` Hz into consecutive windows of
`min max_speech_duration 10` seconds; the final window may be shorter. -/
def segment_fixed (audioLen sample_rate : ℕ) (max_speech_duration : ℚ) : List (ℚ × ℚ) :=
  let duration : ℚ := (audioLen : ℚ) / (sample_rate : ℚ)
  let segment_length : ℚ := min max_speech_duration 10
  chunkLoop segment_length duration 0 (chunkFuel segment_length 0 duration)

/-- The per-timestamp post-processing loop of `VADSegmenter._segment_silero`
(vad.py lines 126-142): drop raw model spans shorter than
`min_speech_duration`, split spans longer than `max_speech_duration`,
keep the rest unchanged, concatenating in input order. -/
def segment_silero_process (min_speech_duration max_speech_duration : ℚ) :
    List (ℚ × ℚ) → List (ℚ × ℚ)
  | [] => []
  | (s, e) :: rest =>
    (if min_speech_duration ≤ e - s then
       if max_speech_duration < e - s then split_long_segment max_speech_duration s e
       else [(s, e)]
     else []) ++ segment_silero_process min_speech_duration max_speech_duration rest

/-- `VADSegmenter._segment_silero` (vad.py lines 112-146).  The external
Silero model call is modelled as an `Except`-valued input: a raised
exception is caught and answered with `_segment_fixed` (lines 144-146). -/
def segment_silero (min_speech_duration max_speech_duration : ℚ) (audioLen sample_rate : ℕ)
    (model : Except PyError (List (ℚ × ℚ))) : List (ℚ × ℚ) :=
  match model with
  | .ok speech_timestamps =>
      segment_silero_process min_speech_duration max_speech_duration speech_timestamps
  | .error _ => segment_fixed audioLen sample_rate max_speech_duration

/-- The sample indices visited by the frame loop of
`VADSegmenter._segment_webrtc` (vad.py line 165), i.e. Python
`range(0, audioLen, frameSize)` for `frameSize > 0`. -/
def webrtcIndices (audioLen frameSize : ℕ) : List ℕ :=
  (List.range ((audioLen + frameSize - 1) / frameSize)).map (· * frameSize)

/-- One iteration of the frame loop of `VADSegmenter._segment_webrtc`
(vad.py lines 165-186), acting on the state
`(segments so far, current_start)`; `isSpeech i` is the external
classifier's verdict on the frame starting at sample `i`. -/
def webrtcStep (sample_rate : ℕ) (min_speech_duration : ℚ) (isSpeech : ℕ → Bool)
    (st : List (ℚ × ℚ) × Option ℚ) (i : ℕ) : List (ℚ × ℚ) × Option ℚ :=
  let current_time : ℚ := (i : ℚ) / (sample_rate : ℚ)
  match st.2 with
  | none => if isSpeech i then (st.1, some current_time) else (st.1, none)
  | some current_start =>
    if isSpeech i then (st.1, some current_start)
    else if min_speech_duration ≤ current_time - current_start then
      (st.1 ++ [(current_start, current_time)], none)
    else (st.1, none)

/-- The pure frame-classification path of `VADSegmenter._segment_webrtc`
(vad.py lines 156-195): run the frame loop over all frame start indices,
then close a trailing in-progress span at end of audio (lines 188-193). -/
def segment_webrtc_loop (audioLen sample_rate : ℕ) (min_speech_duration : ℚ)
    (isSpeech : ℕ → Bool) : List (ℚ × ℚ) :=
  let frameSize := sample_rate * 30 / 1000
  let st := (webrtcIndices audioLen frameSize).foldl
    (webrtcStep sample_rate min_speech_duration isSpeech) ([], none)
  match st.2 with
  | some current_start =>
    let end_time : ℚ := (audioLen : ℚ) / (sample_rate : ℚ)
    if min_speech_duration ≤ end_time - current_start then
      st.1 ++ [(current_start, end_time)]
    else st.1
  | none => st.1

/-- `VADSegmenter._segment_webrtc` (vad.py lines 148-199): fall back to
`_segment_fixed` when webrtcvad is unavailable, when no VAD object was
constructed, or when the classifier raises at runtime. -/
def segment_webrtc (min_speech_duration max_speech_duration : ℚ) (audioLen sample_rate : ℕ)
    (available haveVad : Bool) (classifier : Except PyError (ℕ → Bool)) : List (ℚ × ℚ) :=
  if !available || !haveVad then segment_fixed audioLen sample_rate max_speech_duration
  else
    match classifier with
    | .ok isSpeech => segment_webrtc_loop audioLen sample_rate min_speech_duration isSpeech
    | .error _ => segment_fixed audioLen sample_rate max_speech_duration

/-- `VADSegmenter.segment_audio` (vad.py lines 95-110): dispatch on the
resolved `method` string; any method other than silero and webrtc uses
fixed segmentation. -/
def segment_audio (method : String) (min_speech_duration max_speech_duration : ℚ)
    (audioLen sample_rate : ℕ) (sileroModel : Except PyError (List (ℚ × ℚ)))
    (webrtcAvailable haveWebrtcVad : Bool) (classifier : Except PyError (ℕ → Bool)) :
    List (ℚ × ℚ) :=
  if method = "silero" then
    segment_silero min_speech_duration max_speech_duration audioLen sample_rate sileroModel
  else if method = "webrtc" then
    segment_webrtc min_speech_duration max_speech_duration audioLen sample_rate
      webrtcAvailable haveWebrtcVad classifier
  else segment_fixed audioLen sample_rate max_speech_duration

/-- Environment of the VAD constructor: whether the external Silero model
load succeeds, whether the webrtcvad package imported, and whether
constructing `webrtcvad.Vad` succeeds. -/
structure VADEnv where
  sileroLoadOk : Bool
  webrtcAvailable : Bool
  webrtcInitOk : Bool
deriving DecidableEq

/-- `VADSegmenter._init_webrtc_vad` (vad.py lines 80-93): the value of
`self.method` after the call. -/
def init_webrtc_vad (env : VADEnv) : String :=
  if !env.webrtcAvailable then "fixed"
  else if env.webrtcInitOk then "webrtc"
  else "fixed"

/-- `VADSegmenter._init_vad` (vad.py lines 53-78): the value of
`self.method` after construction, or the `ValueError` raised on an
unknown method name. -/
def init_vad (method : String) (env : VADEnv) : Except PyError String :=
  if method = "silero" then
    if env.sileroLoadOk then .ok "silero"
    else .ok (init_webrtc_vad env)
  else if method = "webrtc" then .ok (init_webrtc_vad env)
  else if method = "fixed" then .ok "fixed"
  else .error (.valueError ("Método VAD inválido: " ++ method))

/-! ## Pipeline configuration (src/core/pipeline.py, `PipelineConfig`) -/

/-- `PipelineConfig` (pipeline.py lines 25-40), before `__post_init__`
runs.  The filesystem-derived `cache_dir` default and the thread count
are external concerns and are not modelled. -/
structure PipelineConfig where
  mode : String := "fast"
  source_language : String := "auto"
  target_language : Option String := none
  output_formats : List String := ["srt"]
  embed_subtitles : Bool := false
  bilingual_subtitles : Bool := false
  multilingual_detection : Bool := false
  preserve_original_languages : Bool := false
  add_language_labels : Bool := false
  vad_method : String := "silero"
  device : String := "auto"
deriving DecidableEq

/-- `PipelineConfig.__post_init__` (pipeline.py lines 42-54): the
multilingual resolution applied to the raw field values at construction
time.  A constructed config is `pipelineConfig_post_init raw`. -/
def pipelineConfig_post_init (c : PipelineConfig) : PipelineConfig :=
  if c.multilingual_detection then
    let c := if c.source_language = "auto" then { c with source_language := "multilingual" } else c
    if !pyTruthy c.target_language then { c with preserve_original_languages := true } else c
  else c

/-! ## Transcript segments and the reconciler (src/core/pipeline.py) -/

/-- `TranscriptionSegment` (whisper_engine.py lines 18-27) together with
the `translated_text` attribute that `_translate_segments` attaches
dynamically (pipeline.py lines 280, 290, 294).  The numeric confidence
fields are never read by the embedded code and are omitted. -/
structure TranscriptSegment where
  id : ℤ
  start : ℚ
  «end» : ℚ
  text : String
  language : String := "unknown"
  translated_text : Option String := none
deriving DecidableEq

/-- The per-segment body of `MotherLinePipeline._translate_segments`
(pipeline.py lines 264-294).  `target_language` is a plain string because
the stage only runs under the `if self.config.target_language` guard
(line 210); the external translator call is an `Except`-valued input,
whose `.error` case is the `except` branch of lines 286-290. -/
def translate_segment (multilingual_detection preserve_original_languages : Bool)
    (target_language detected_language : String)
    (translation : Except PyError String) (seg : TranscriptSegment) : TranscriptSegment :=
  let source_lang := if multilingual_detection then seg.language else detected_language
  if source_lang ≠ target_language then
    match translation with
    | .ok translated_text =>
      if preserve_original_languages then { seg with translated_text := some translated_text }
      else { seg with text := translated_text, language := target_language }
    | .error _ =>
      if preserve_original_languages then { seg with translated_text := some seg.text }
      else seg
  else if preserve_original_languages then { seg with translated_text := some seg.text }
  else seg

/-- The final-display-text computation of
`MotherLinePipeline._create_subtitle_segments` (pipeline.py lines
303-328): optional language labelling followed by the
bilingual / preserve-original / plain priority chain. -/
def create_subtitle_text (cfg : PipelineConfig) (seg : TranscriptSegment) : String :=
  let original_text := seg.text
  let translated_text := seg.translated_text
  let labelled :=
    if cfg.add_language_labels && cfg.multilingual_detection then
      let original_text := "[" ++ seg.language.toUpper ++ "] " ++ original_text
      let translated_text :=
        if pyTruthy translated_text && pyTruthy cfg.target_language then
          some ("[" ++ (cfg.target_language.getD "").toUpper ++ "] " ++ translated_text.getD "")
        else translated_text
      (original_text, translated_text)
    else (original_text, translated_text)
  let original_text := labelled.1
  let translated_text := labelled.2
  if cfg.bilingual_subtitles && pyTruthy translated_text then
    original_text ++ "\n" ++ translated_text.getD ""
  else if cfg.preserve_original_languages && pyTruthy translated_text then
    if cfg.target_language = some seg.language then original_text
    else translated_text.getD ""
  else original_text

/-- Modelled from the spec (§4.2 final text selection): the four-step
priority chain as the claim words it — label both texts when labelling is
on, then bilingual merge, then preserve-original choice, then plain
original.  A translated text "exists" is read as Python truthiness
(present and non-empty), as in the code's own tests. -/
def final_text_spec (cfg : PipelineConfig) (seg : TranscriptSegment) : String :=
  let lbl : String → String → String := fun l t => "[" ++ l.toUpper ++ "] " ++ t
  let labelledOriginal :=
    if cfg.add_language_labels && cfg.multilingual_detection then lbl seg.language seg.text
    else seg.text
  let labelledTranslation : Option String :=
    match seg.translated_text with
    | none => none
    | some t =>
      if cfg.add_language_labels && cfg.multilingual_detection
          && !t.isEmpty && pyTruthy cfg.target_language then
        some (lbl (cfg.target_language.getD "") t)
      else some t
  if cfg.bilingual_subtitles && pyTruthy labelledTranslation then
    labelledOriginal ++ "\n" ++ labelledTranslation.getD ""
  else if cfg.preserve_original_languages && pyTruthy labelledTranslation then
    if cfg.target_language = some seg.language then labelledOriginal
    else labelledTranslation.getD ""
  else labelledOriginal

/-! ## Subtitle serializer (src/subtitle/generator.py) -/

/-- `SubtitleSegment` (generator.py lines 18-25). -/
structure SubtitleSegment where
  index : ℤ
  start : ℚ
  «end» : ℚ
  text : String
  translation : Option String := none
deriving DecidableEq

/-- The timestamp repairs of `SubtitleGenerator.validate_segments`
(generator.py lines 370-375): clamp a negative start to 0, then repair a
non-positive duration to one second. -/
def fix_segment_times (s : SubtitleSegment) : SubtitleSegment :=
  let s := if s.start < 0 then { s with start := 0 } else s
  if s.«end» ≤ s.start then { s with «end» := s.start + 1 } else s

/-- The duration clamp of `SubtitleGenerator.validate_segments`
(generator.py lines 381-384): cap the duration at `max_duration = 10.0`. -/
def clamp_segment_duration (s : SubtitleSegment) : SubtitleSegment :=
  if 10 < s.«end» - s.start then { s with «end» := s.start + 10 } else s

/-- `SubtitleGenerator.validate_segments` (generator.py lines 357-388):
repair timestamps, drop segments whose text is empty after stripping,
clamp over-long durations, keep the rest in order. -/
def validate_segments : List SubtitleSegment → List SubtitleSegment
  | [] => []
  | seg :: rest =>
    let seg := fix_segment_times seg
    if pyStrip seg.text = "" then validate_segments rest
    else clamp_segment_duration seg :: validate_segments rest

/-- The per-segment text choice of the renderers (generator.py lines
94-95, 148-149, 207-208): the translation when requested and truthy,
otherwise the original text. -/
def renderer_text (use_translation : Bool) (seg : SubtitleSegment) : String :=
  if use_translation && pyTruthy seg.translation then seg.translation.getD "" else seg.text

/-- One subtitle record as handed to `srt.compose` by
`SubtitleGenerator.generate_srt` (generator.py lines 105-110). -/
structure SrtSubtitle where
  index : ℤ
  start : ℚ
  «end» : ℚ
  content : String
deriving DecidableEq

/-- The segment-processing loop of `SubtitleGenerator.generate_srt`
(generator.py lines 90-115): skip segments whose chosen text is empty
after stripping, otherwise emit a subtitle record with the segment's
index and timestamps unchanged and the stripped text as content.  The
external `srt.compose` and the file write are not modelled. -/
def generate_srt_subtitles (use_translation : Bool) : List SubtitleSegment → List SrtSubtitle
  | [] => []
  | seg :: rest =>
    let text := renderer_text use_translation seg
    if pyStrip text = "" then generate_srt_subtitles use_translation rest
    else { index := seg.index, start := seg.start, «end» := seg.«end», content := pyStrip text }
      :: generate_srt_subtitles use_translation rest

/-- One cue of the WebVTT body as assembled by
`SubtitleGenerator.generate_vtt` (generator.py lines 146-160): the two
timestamps handed to `_format_vtt_time` and the stripped text.  The
header literal, the time-code formatting and the file write are not
modelled. -/
structure VttCue where
  start : ℚ
  «end» : ℚ
  content : String
deriving DecidableEq

/-- The segment-processing loop of `SubtitleGenerator.generate_vtt`
(generator.py lines 146-160): skip segments whose chosen text is empty
after stripping, otherwise emit a cue with the segment timestamps
unchanged and the stripped text. -/
def generate_vtt_cues (use_translation : Bool) : List SubtitleSegment → List VttCue
  | [] => []
  | seg :: rest =>
    let text := renderer_text use_translation seg
    if pyStrip text = "" then generate_vtt_cues use_translation rest
    else { start := seg.start, «end» := seg.«end», content := pyStrip text }
      :: generate_vtt_cues use_translation rest

/-- One `Dialogue:` event as assembled by
`SubtitleGenerator.generate_ass` (generator.py lines 205-218): the two
timestamps handed to `_format_ass_time` and the stripped text.  The
verbatim script header, the time-code formatting and the file write are
not modelled. -/
structure AssDialogue where
  start : ℚ
  «end» : ℚ
  content : String
deriving DecidableEq

/-- The segment-processing loop of `SubtitleGenerator.generate_ass`
(generator.py lines 205-218): skip segments whose chosen text is empty
after stripping, otherwise emit a dialogue event with the segment
timestamps unchanged and the stripped text. -/
def generate_ass_dialogues (use_translation : Bool) : List SubtitleSegment → List AssDialogue
  | [] => []
  | seg :: rest =>
    let text := renderer_text use_translation seg
    if pyStrip text = "" then generate_ass_dialogues use_translation rest
    else { start := seg.start, «end» := seg.«end», content := pyStrip text }
      :: generate_ass_dialogues use_translation rest

/-! ## Pipeline orchestrator (src/core/pipeline.py) -/

/-- `ProcessingResult` (pipeline.py lines 56-68).  The free-form
`metadata` dictionary is not modelled. -/
structure ProcessingResult where
  success : Bool
  output_files : List String := []
  processing_time : ℚ := 0
  audio_duration : ℚ := 0
  segments_count : ℕ := 0
  detected_language : Option String := none
  languages_found : List String := []
  multilingual_detected : Bool := false
  error_message : Option String := none
deriving DecidableEq

/-- `MotherLinePipeline.process_file` (pipeline.py lines 124-167): the
missing-input check raises `FileNotFoundError` inside the `try` block;
the rest of the body (`_execute_pipeline` with its directory handling)
is the `Except`-valued input `pipelineRun`; the `except` block returns a
failure `ProcessingResult` carrying the exception message.  `elapsed` is
the measured wall-clock time. -/
def process_file (input_file : String) (inputExists : Bool)
    (pipelineRun : Except PyError ProcessingResult) (elapsed : ℚ) : ProcessingResult :=
  let attempt : Except PyError ProcessingResult :=
    if !inputExists then
      .error (.fileNotFoundError ("Arquivo não encontrado: " ++ input_file))
    else pipelineRun
  match attempt with
  | .ok result => { result with processing_time := elapsed }
  | .error e =>
    { success := false
      error_message := some (pyErrStr e)
      processing_time := elapsed }

/-- The keyword parameters accepted by `VADSegmenter.__init__`
(vad.py lines 25-30). -/
def vadSegmenterAcceptedKwargs : List String :=
  ["method", "aggressiveness", "min_speech_duration", "max_speech_duration", "sample_rate"]

/-- Python keyword-argument binding: calling a function with a keyword
that is not among its parameters raises `TypeError`. -/
def bindKwargs (accepted passed : List String) : Except PyError Unit :=
  match passed.find? (fun k => !accepted.contains k) with
  | some k => .error (.typeError ("__init__ got an unexpected keyword argument " ++ k))
  | none => .ok ()

/-- `MotherLinePipeline._initialize_components` (pipeline.py lines
91-122): construct the audio extractor (external, `extractorInit`), then
call `VADSegmenter(method=..., device=...)` (lines 98-101), then the
remaining components (`rest`); any exception is caught and re-raised as
`RuntimeError` (lines 120-122). -/
def initialize_components (cfg : PipelineConfig) (extractorInit : Except PyError Unit)
    (rest : Except PyError Unit) : Except PyError Unit :=
  let attempt : Except PyError Unit :=
    match extractorInit with
    | .error e => .error e
    | .ok _ =>
      match bindKwargs vadSegmenterAcceptedKwargs ["method", "device"] with
      | .error e => .error e
      | .ok _ => rest
  match attempt with
  | .ok u => .ok u
  | .error e => .error (.runtimeError ("Falha na inicialização do pipeline: " ++ pyErrStr e))

/-- `MotherLinePipeline.__init__` (pipeline.py lines 73-89): stores the
config and runs `_initialize_components`, whose exception propagates to
the constructor's caller. -/
def motherLinePipeline_init (cfg : PipelineConfig) (extractorInit : Except PyError Unit)
    (rest : Except PyError Unit) : Except PyError Unit :=
  initialize_components cfg extractorInit rest

/-! ## Properties of the chunking loop -/

/-- The window list tiles `[a, b]` exactly: the first window starts at
`a`, each window starts where the previous one ended, and the last one
ends at `b`. -/
def Covers (a b : ℚ) : List (ℚ × ℚ) → Prop
  | [] => a = b
  | p :: rest => p.1 = a ∧ Covers p.2 b rest

/-- Every window is at most `L` long, and every window except the last
is exactly `L` long. -/
def WindowsOf (L : ℚ) : List (ℚ × ℚ) → Prop
  | [] => True
  | [p] => p.2 - p.1 ≤ L
  | p :: q :: rest => p.2 - p.1 = L ∧ WindowsOf L (q :: rest)

theorem chunkLoop_eq_nil (step stop cur : ℚ) (fuel : ℕ) (h : stop ≤ cur) :
    chunkLoop step stop cur fuel = [] := by
  cases fuel with
  | zero => rfl
  | succ n => simp [chunkLoop, not_lt.mpr h]

theorem chunkLoop_mem (step stop : ℚ) (hstep : 0 < step) :
    ∀ (fuel : ℕ) (cur : ℚ), ∀ p ∈ chunkLoop step stop cur fuel,
      cur ≤ p.1 ∧ p.1 < p.2 ∧ p.2 ≤ stop := by
  intro fuel
  induction fuel with
  | zero => intro cur p hp; simp [chunkLoop] at hp
  | succ n ih =>
    intro cur p hp
    by_cases h : cur < stop
    · simp only [chunkLoop, if_pos h] at hp
      rcases List.mem_cons.mp hp with rfl | hp
      · exact ⟨le_rfl, lt_min (by linarith) h, min_le_right _ _⟩
      · have h1 := ih (min (cur + step) stop) p hp
        have h2 : cur ≤ min (cur + step) stop := le_min (by linarith) (le_of_lt h)
        exact ⟨le_trans h2 h1.1, h1.2.1, h1.2.2⟩
    · simp [chunkLoop, if_neg h] at hp

theorem chunkLoop_chain (step stop : ℚ) (hstep : 0 < step) :
    ∀ (fuel : ℕ) (cur : ℚ),
      List.Chain' (fun p q => p.2 ≤ q.1) (chunkLoop step stop cur fuel) := by
  intro fuel
  induction fuel with
  | zero => intro cur; simp [chunkLoop]
  | succ n ih =>
    intro cur
    by_cases h : cur < stop
    · simp only [chunkLoop, if_pos h]
      refine List.chain'_cons'.mpr ⟨?_, ih _⟩
      intro y hy
      exact (chunkLoop_mem step stop hstep n (min (cur + step) stop) y
        (List.mem_of_mem_head? hy)).1
    · simp [chunkLoop, if_neg h]

theorem chunkLoop_covers (step stop : ℚ) :
    ∀ (fuel : ℕ) (cur : ℚ), cur ≤ stop → stop - cur ≤ (fuel : ℚ) * step →
      Covers cur stop (chunkLoop step stop cur fuel) := by
  intro fuel
  induction fuel with
  | zero =>
    intro cur hle hfuel
    have : cur = stop := by push_cast at hfuel; linarith
    simpa [chunkLoop, Covers] using this
  | succ n ih =>
    intro cur hle hfuel
    by_cases h : cur < stop
    · simp only [chunkLoop, if_pos h, Covers]
      refine ⟨by trivial, ?_⟩
      by_cases h2 : cur + step ≤ stop
      · rw [min_eq_left h2]
        apply ih (cur + step) h2
        push_cast at hfuel ⊢
        linarith
      · rw [min_eq_right (le_of_not_le h2)]
        rw [chunkLoop_eq_nil step stop stop n le_rfl]
        simp [Covers]
    · have : cur = stop := le_antisymm hle (le_of_not_lt h)
      simp [chunkLoop, if_neg h, Covers, this]

theorem chunkLoop_windows (step stop : ℚ) :
    ∀ (fuel : ℕ) (cur : ℚ), WindowsOf step (chunkLoop step stop cur fuel) := by
  intro fuel
  induction fuel with
  | zero => intro cur; simp [chunkLoop, WindowsOf]
  | succ n ih =>
    intro cur
    by_cases h : cur < stop
    · simp only [chunkLoop, if_pos h]
      rcases heq : chunkLoop step stop (min (cur + step) stop) n with _ | ⟨q, t⟩
      · have : min (cur + step) stop - cur ≤ step := by
          have := min_le_left (cur + step) stop
          linarith
        simpa [WindowsOf] using this
      · have hlt : min (cur + step) stop < stop := by
          by_contra hge
          rw [chunkLoop_eq_nil step stop _ n (le_of_not_lt hge)] at heq
          exact List.noConfusion heq
        have hmin : min (cur + step) stop = cur + step := by
          rcases min_cases (cur + step) stop with ⟨he, _⟩ | ⟨he, hc⟩
          · exact he
          · rw [he] at hlt; exact absurd hlt (lt_irrefl _)
        have hrec := ih (min (cur + step) stop)
        rw [heq] at hrec
        show WindowsOf step ((cur, min (cur + step) stop) :: q :: t)
        exact ⟨by rw [hmin]; ring, hrec⟩
    · simp [chunkLoop, if_neg h, WindowsOf]

/-! ## Well-formedness glue -/

theorem chain_sep_le :
    ∀ (l : List (ℚ × ℚ)) (a : ℚ × ℚ), (∀ p ∈ l, p.1 ≤ p.2) →
      List.Chain' (fun p q : ℚ × ℚ => p.2 ≤ q.1) (a :: l) → ∀ q ∈ l, a.2 ≤ q.1 := by
  intro l
  induction l with
  | nil => intro a _ _ q hq; simp at hq
  | cons b t ih =>
    intro a hb hc q hq
    have hab : a.2 ≤ b.1 := (List.chain'_cons.mp hc).1
    rcases List.mem_cons.mp hq with rfl | hq
    · exact hab
    · have hbq := ih b (fun p hp => hb p (List.mem_cons_of_mem _ hp))
        (List.chain'_cons.mp hc).2 q hq
      have hbb : b.1 ≤ b.2 := hb b (List.mem_cons_self _ _)
      linarith

theorem spansWF_of_chain (D : ℚ) :
    ∀ (l : List (ℚ × ℚ)), (∀ p ∈ l, 0 ≤ p.1 ∧ p.1 < p.2 ∧ p.2 ≤ D) →
      List.Chain' (fun p q : ℚ × ℚ => p.2 ≤ q.1) l → SpansWF D l := by
  intro l
  induction l with
  | nil => intro _ _; exact ⟨by simp, by simp, by simp⟩
  | cons a t ih =>
    intro hb hc
    have hsep : ∀ q ∈ t, a.2 ≤ q.1 :=
      chain_sep_le t a (fun p hp => le_of_lt (hb p (List.mem_cons_of_mem _ hp)).2.1)
        hc
    have ht := ih (fun p hp => hb p (List.mem_cons_of_mem _ hp))
      (List.chain'_cons'.mp hc).2
    refine ⟨hb, List.pairwise_cons.mpr ⟨hsep, ht.2.1⟩, List.pairwise_cons.mpr ⟨?_, ht.2.2⟩⟩
    intro q hq
    have h1 : a.1 < a.2 := (hb a (List.mem_cons_self _ _)).2.1
    have h2 := hsep q hq
    linarith

/-! ## Well-formedness of the fixed and silero strategies -/

theorem segment_fixed_wf (audioLen sample_rate : ℕ) (maxS : ℚ) (hmax : 0 < maxS) :
    SpansWF ((audioLen : ℚ) / (sample_rate : ℚ)) (segment_fixed audioLen sample_rate maxS) := by
  have hL : 0 < min maxS 10 := lt_min hmax (by norm_num)
  have hmem := chunkLoop_mem (min maxS 10) ((audioLen : ℚ) / (sample_rate : ℚ)) hL
    (chunkFuel (min maxS 10) 0 ((audioLen : ℚ) / (sample_rate : ℚ))) 0
  have hch := chunkLoop_chain (min maxS 10) ((audioLen : ℚ) / (sample_rate : ℚ)) hL
    (chunkFuel (min maxS 10) 0 ((audioLen : ℚ) / (sample_rate : ℚ))) 0
  refine spansWF_of_chain _ _ (fun p hp => ?_) ?_
  · have h := hmem p (by simpa [segment_fixed] using hp)
    exact ⟨h.1, h.2.1, h.2.2⟩
  · simpa [segment_fixed] using hch

theorem silero_process_wf (minS maxS D : ℚ) (hmin : 0 < minS) (hmax : 0 < maxS) :
    ∀ (ts : List (ℚ × ℚ)),
      (∀ p ∈ ts, 0 ≤ p.1 ∧ p.1 ≤ p.2 ∧ p.2 ≤ D) →
      List.Chain' (fun p q : ℚ × ℚ => p.2 ≤ q.1) ts →
      (∀ p ∈ segment_silero_process minS maxS ts, 0 ≤ p.1 ∧ p.1 < p.2 ∧ p.2 ≤ D) ∧
      List.Chain' (fun p q : ℚ × ℚ => p.2 ≤ q.1) (segment_silero_process minS maxS ts) ∧
      (∀ q ∈ segment_silero_process minS maxS ts, ∃ r ∈ ts, r.1 ≤ q.1) := by
  intro ts
  induction ts with
  | nil => intro _ _; refine ⟨by simp [segment_silero_process], by simp [segment_silero_process], by simp [segment_silero_process]⟩
  | cons a rest ih =>
    obtain ⟨s, e⟩ := a
    intro hb hc
    have hse : 0 ≤ s ∧ s ≤ e ∧ e ≤ D := hb (s, e) (List.mem_cons_self _ _)
    have hbrest : ∀ p ∈ rest, 0 ≤ p.1 ∧ p.1 ≤ p.2 ∧ p.2 ≤ D :=
      fun p hp => hb p (List.mem_cons_of_mem _ hp)
    have hcrest : List.Chain' (fun p q : ℚ × ℚ => p.2 ≤ q.1) rest :=
      (List.chain'_cons'.mp hc).2
    have hrest := ih hbrest hcrest
    have hestart : ∀ r ∈ rest, e ≤ r.1 :=
      chain_sep_le rest (s, e) (fun p hp => (hbrest p hp).2.1) hc
    set g : List (ℚ × ℚ) :=
      (if minS ≤ e - s then
        if maxS < e - s then split_long_segment maxS s e else [(s, e)]
      else []) with hg
    have hgmem : ∀ p ∈ g, s ≤ p.1 ∧ p.1 < p.2 ∧ p.2 ≤ e := by
      intro p hp
      rw [hg] at hp
      by_cases h1 : minS ≤ e - s
      · rw [if_pos h1] at hp
        by_cases h2 : maxS < e - s
        · rw [if_pos h2] at hp
          exact chunkLoop_mem maxS e hmax _ s p (by simpa [split_long_segment] using hp)
        · rw [if_neg h2] at hp
          rcases List.mem_singleton.mp hp with rfl
          exact ⟨le_rfl, by linarith, le_rfl⟩
      · rw [if_neg h1] at hp
        simp at hp
    have hgchain : List.Chain' (fun p q : ℚ × ℚ => p.2 ≤ q.1) g := by
      rw [hg]
      by_cases h1 : minS ≤ e - s
      · rw [if_pos h1]
        by_cases h2 : maxS < e - s
        · rw [if_pos h2]
          simpa [split_long_segment] using chunkLoop_chain maxS e hmax _ s
        · rw [if_neg h2]; simp
      · rw [if_neg h1]; simp
    have hunfold : segment_silero_process minS maxS ((s, e) :: rest) =
        g ++ segment_silero_process minS maxS rest := by
      rw [hg]; rfl
    rw [hunfold]
    refine ⟨?_, ?_, ?_⟩
    · intro p hp
      rcases List.mem_append.mp hp with hp | hp
      · have h := hgmem p hp
        exact ⟨le_trans hse.1 h.1, h.2.1, le_trans h.2.2 hse.2.2⟩
      · exact hrest.1 p hp
    · refine List.Chain'.append hgchain hrest.2.1 ?_
      intro x hx y hy
      have hxg : x ∈ g := List.mem_of_getLast?_eq_some hx
      have hyp : y ∈ segment_silero_process minS maxS rest := List.mem_of_mem_head? hy
      obtain ⟨r, hr, hry⟩ := hrest.2.2 y hyp
      have h1 : x.2 ≤ e := (hgmem x hxg).2.2
      have h2 : e ≤ r.1 := hestart r hr
      linarith
    · intro q hq
      rcases List.mem_append.mp hq with hq | hq
      · exact ⟨(s, e), List.mem_cons_self _ _, (hgmem q hq).1⟩
      · obtain ⟨r, hr, hrq⟩ := hrest.2.2 q hq
        exact ⟨r, List.mem_cons_of_mem _ hr, hrq⟩

/-! ## Well-formedness of the webrtc strategy -/

theorem qdiv_nonneg (i sr : ℕ) : 0 ≤ (i : ℚ) / (sr : ℚ) :=
  div_nonneg (Nat.cast_nonneg _) (Nat.cast_nonneg _)

theorem qdiv_mono (sr : ℕ) {i j : ℕ} (h : i ≤ j) :
    (i : ℚ) / (sr : ℚ) ≤ (j : ℚ) / (sr : ℚ) := by
  rw [div_eq_mul_inv, div_eq_mul_inv]
  exact mul_le_mul_of_nonneg_right (by exact_mod_cast h)
    (inv_nonneg.mpr (Nat.cast_nonneg _))

theorem webrtcIndices_lt (audioLen frameSize : ℕ) :
    ∀ i ∈ webrtcIndices audioLen frameSize, i < audioLen := by
  intro i hi
  unfold webrtcIndices at hi
  rcases List.mem_map.mp hi with ⟨k, hk, rfl⟩
  have hk2 := List.mem_range.mp hk
  rcases Nat.eq_zero_or_pos frameSize with hf | hf
  · subst hf
    rw [Nat.div_zero] at hk2
    omega
  · by_contra hge
    push_neg at hge
    have h1 : (audioLen + frameSize - 1) / frameSize ≤
        (k * frameSize + frameSize - 1) / frameSize :=
      Nat.div_le_div_right (by omega)
    have h2 : (k * frameSize + frameSize - 1) / frameSize = k := by
      have heq : k * frameSize + frameSize - 1 = (frameSize - 1) + k * frameSize := by omega
      rw [heq, Nat.add_mul_div_right _ _ hf, Nat.div_eq_of_lt (by omega)]
      omega
    omega

theorem webrtcIndices_sorted (audioLen frameSize : ℕ) :
    List.Pairwise (· ≤ ·) (webrtcIndices audioLen frameSize) := by
  unfold webrtcIndices
  exact (List.pairwise_map).mpr
    ((List.pairwise_lt_range _).imp (fun h => Nat.mul_le_mul_right _ (le_of_lt h)))

/-- Invariant of the webrtc frame loop: the collected spans are
non-degenerate (length at least `minS`), chained, all ending no later
than the open start (when a span is open) or `tlow` (when none is), and
the open start lies in `[0, tlow]`.  `tlow` is a lower bound on every
not-yet-processed frame time. -/
def WInvariant (minS tlow : ℚ) (st : List (ℚ × ℚ) × Option ℚ) : Prop :=
  (∀ p ∈ st.1, 0 ≤ p.1 ∧ p.1 + minS ≤ p.2) ∧
  List.Chain' (fun p q : ℚ × ℚ => p.2 ≤ q.1) st.1 ∧
  (∀ p ∈ st.1, p.2 ≤ st.2.getD tlow) ∧
  (∀ c, st.2 = some c → 0 ≤ c ∧ c ≤ tlow)

theorem WInvariant.mono {minS tlow tlow' : ℚ} {st : List (ℚ × ℚ) × Option ℚ}
    (h : WInvariant minS tlow st) (hle : tlow ≤ tlow') : WInvariant minS tlow' st := by
  obtain ⟨h1, h2, h3, h4⟩ := h
  refine ⟨h1, h2, ?_, ?_⟩
  · intro p hp
    refine le_trans (h3 p hp) ?_
    cases st.2 with
    | none => simpa using hle
    | some c => simp
  · intro c hc
    have := h4 c hc
    exact ⟨this.1, le_trans this.2 hle⟩

theorem webrtcStep_winv (sr : ℕ) (minS : ℚ) (isSp : ℕ → Bool) (i : ℕ)
    (st : List (ℚ × ℚ) × Option ℚ)
    (h : WInvariant minS ((i : ℚ) / (sr : ℚ)) st) :
    WInvariant minS ((i : ℚ) / (sr : ℚ)) (webrtcStep sr minS isSp st i) := by
  obtain ⟨segs, cs⟩ := st
  obtain ⟨h1, h2, h3, h4⟩ := h
  simp only at h1 h2 h3 h4
  have ht0 : 0 ≤ (i : ℚ) / (sr : ℚ) := qdiv_nonneg i sr
  cases cs with
  | none =>
    by_cases hsp : isSp i
    · have heq : webrtcStep sr minS isSp (segs, none) i =
          (segs, some ((i : ℚ) / (sr : ℚ))) := by simp [webrtcStep, hsp]
      rw [heq]
      refine ⟨h1, h2, ?_, ?_⟩
      · intro p hp
        simpa using h3 p hp
      · intro c hc
        simp only [Option.some.injEq] at hc
        exact ⟨hc ▸ ht0, le_of_eq hc.symm⟩
    · have heq : webrtcStep sr minS isSp (segs, none) i = (segs, none) := by
        simp [webrtcStep, hsp]
      rw [heq]
      exact ⟨h1, h2, h3, by simp⟩
  | some c =>
    have hc := h4 c rfl
    by_cases hsp : isSp i
    · have heq : webrtcStep sr minS isSp (segs, some c) i = (segs, some c) := by
        simp [webrtcStep, hsp]
      rw [heq]
      exact ⟨h1, h2, h3, fun d hd => by
        simp only [Option.some.injEq] at hd
        exact hd ▸ hc⟩
    · by_cases hdur : minS ≤ (i : ℚ) / (sr : ℚ) - c
      · have heq : webrtcStep sr minS isSp (segs, some c) i =
            (segs ++ [(c, (i : ℚ) / (sr : ℚ))], none) := by
          simp [webrtcStep, hsp, hdur]
        rw [heq]
        refine ⟨?_, ?_, ?_, by simp⟩
        · intro p hp
          rcases List.mem_append.mp hp with hp | hp
          · exact h1 p hp
          · rcases List.mem_singleton.mp hp with rfl
            exact ⟨hc.1, by simpa using by linarith⟩
        · refine List.Chain'.append h2 (List.chain'_singleton _) ?_
          intro x hx y hy
          have hxm : x ∈ segs := List.mem_of_getLast?_eq_some hx
          have hym : y = (c, (i : ℚ) / (sr : ℚ)) :=
            List.mem_singleton.mp (List.mem_of_mem_head? hy)
          have := h3 x hxm
          simp only [Option.getD_some] at this
          rw [hym]
          exact this
        · intro p hp
          simp only [Option.getD_none]
          rcases List.mem_append.mp hp with hp | hp
          · have := h3 p hp
            simp only [Option.getD_some] at this
            linarith [hc.2]
          · rcases List.mem_singleton.mp hp with rfl
            exact le_rfl
      · have heq : webrtcStep sr minS isSp (segs, some c) i = (segs, none) := by
          simp [webrtcStep, hsp, hdur]
        rw [heq]
        refine ⟨h1, h2, ?_, by simp⟩
        intro p hp
        have := h3 p hp
        simp only [Option.getD_some] at this
        simp only [Option.getD_none]
        linarith [hc.2]

theorem webrtc_foldl_winv (sr : ℕ) (minS : ℚ) (isSp : ℕ → Bool) :
    ∀ (idxs : List ℕ) (st : List (ℚ × ℚ) × Option ℚ) (tlow tfin : ℚ),
      WInvariant minS tlow st → tlow ≤ tfin →
      (∀ i ∈ idxs, tlow ≤ (i : ℚ) / (sr : ℚ) ∧ (i : ℚ) / (sr : ℚ) ≤ tfin) →
      List.Pairwise (· ≤ ·) idxs →
      WInvariant minS tfin (idxs.foldl (webrtcStep sr minS isSp) st) := by
  intro idxs
  induction idxs with
  | nil =>
    intro st tlow tfin h hle _ _
    exact h.mono hle
  | cons i rest ih =>
    intro st tlow tfin h hle hbound hsorted
    simp only [List.foldl_cons]
    have hti := (hbound i (List.mem_cons_self _ _)).1
    have h1 : WInvariant minS ((i : ℚ) / (sr : ℚ)) st := h.mono hti
    have h2 := webrtcStep_winv sr minS isSp i st h1
    have hpair := List.pairwise_cons.mp hsorted
    refine ih (webrtcStep sr minS isSp st i) ((i : ℚ) / (sr : ℚ)) tfin h2
      (hbound i (List.mem_cons_self _ _)).2 ?_ hpair.2
    intro j hj
    exact ⟨qdiv_mono sr (hpair.1 j hj), (hbound j (List.mem_cons_of_mem _ hj)).2⟩

theorem segment_webrtc_loop_eq (audioLen sr : ℕ) (minS : ℚ) (isSp : ℕ → Bool)
    (segs : List (ℚ × ℚ)) (cs : Option ℚ)
    (hstv : (webrtcIndices audioLen (sr * 30 / 1000)).foldl
      (webrtcStep sr minS isSp) ([], none) = (segs, cs)) :
    segment_webrtc_loop audioLen sr minS isSp =
      cs.elim segs (fun c =>
        if minS ≤ (audioLen : ℚ) / (sr : ℚ) - c then
          segs ++ [(c, (audioLen : ℚ) / (sr : ℚ))]
        else segs) := by
  simp only [segment_webrtc_loop]
  rw [hstv]
  cases cs with
  | none => rfl
  | some c => rfl

theorem segment_webrtc_loop_wf (audioLen sr : ℕ) (minS : ℚ) (hmin : 0 < minS)
    (isSp : ℕ → Bool) :
    SpansWF ((audioLen : ℚ) / (sr : ℚ)) (segment_webrtc_loop audioLen sr minS isSp) := by
  have hD0 : (0 : ℚ) ≤ (audioLen : ℚ) / (sr : ℚ) := qdiv_nonneg audioLen sr
  have hfold := webrtc_foldl_winv sr minS isSp (webrtcIndices audioLen (sr * 30 / 1000))
    ([], none) 0 ((audioLen : ℚ) / (sr : ℚ))
    ⟨by simp, by simp, by simp, by simp⟩ hD0
    (fun i hi => ⟨qdiv_nonneg i sr,
      qdiv_mono sr (le_of_lt (webrtcIndices_lt audioLen (sr * 30 / 1000) i hi))⟩)
    (webrtcIndices_sorted audioLen (sr * 30 / 1000))
  rcases hstv : (webrtcIndices audioLen (sr * 30 / 1000)).foldl
      (webrtcStep sr minS isSp) ([], none) with ⟨segs, cs⟩
  rw [hstv] at hfold
  obtain ⟨h1, h2, h3, h4⟩ := hfold
  simp only at h1 h2 h3 h4
  rw [segment_webrtc_loop_eq audioLen sr minS isSp segs cs hstv]
  cases cs with
  | none =>
    simp only [Option.elim_none]
    refine spansWF_of_chain _ _ (fun p hp => ?_) h2
    have hb := h1 p hp
    have he := h3 p hp
    simp only [Option.getD_none] at he
    exact ⟨hb.1, by linarith [hb.2], he⟩
  | some c =>
    have hc := h4 c rfl
    simp only [Option.elim_some]
    by_cases hdur : minS ≤ (audioLen : ℚ) / (sr : ℚ) - c
    · rw [if_pos hdur]
      refine spansWF_of_chain _ _ (fun p hp => ?_) ?_
      · rcases List.mem_append.mp hp with hp | hp
        · have hb := h1 p hp
          have he := h3 p hp
          simp only [Option.getD_some] at he
          exact ⟨hb.1, by linarith [hb.2], by linarith [hc.2]⟩
        · rcases List.mem_singleton.mp hp with rfl
          exact ⟨hc.1, by simpa using by linarith, le_rfl⟩
      · refine List.Chain'.append h2 (List.chain'_singleton _) ?_
        intro x hx y hy
        have hxm : x ∈ segs := List.mem_of_getLast?_eq_some hx
        have hym : y = (c, (audioLen : ℚ) / (sr : ℚ)) :=
          List.mem_singleton.mp (List.mem_of_mem_head? hy)
        have := h3 x hxm
        simp only [Option.getD_some] at this
        rw [hym]
        exact this
    · rw [if_neg hdur]
      refine spansWF_of_chain _ _ (fun p hp => ?_) h2
      have hb := h1 p hp
      have he := h3 p hp
      simp only [Option.getD_some] at he
      exact ⟨hb.1, by linarith [hb.2], by linarith [hc.2]⟩

theorem chunkFuel_covers (step lo stop : ℚ) (hstep : 0 < step) (hlo : lo ≤ stop) :
    Covers lo stop (chunkLoop step stop lo (chunkFuel step lo stop)) := by
  apply chunkLoop_covers step stop _ lo hlo
  unfold chunkFuel
  set n : ℤ := ⌈(stop - lo) / step⌉ with hn
  have h1 : (stop - lo) / step ≤ (n : ℚ) := Int.le_ceil _
  have h2 : (0 : ℤ) ≤ n := Int.ceil_nonneg (div_nonneg (by linarith) (le_of_lt hstep))
  have h3n : ((n.toNat : ℕ) : ℚ) = (n : ℚ) := by exact_mod_cast Int.toNat_of_nonneg h2
  have h3 : ((n.toNat + 1 : ℕ) : ℚ) = (n : ℚ) + 1 := by push_cast; rw [h3n]
  rw [h3]
  have h4 : stop - lo ≤ (n : ℚ) * step := by
    have := mul_le_mul_of_nonneg_right h1 (le_of_lt hstep)
    rwa [div_mul_cancel₀ _ (ne_of_gt hstep)] at this
  have h5 : ((n : ℚ) + 1) * step = (n : ℚ) * step + step := by ring
  rw [h5]
  linarith

/-! ## Claim theorems for the segmenter -/

/-- C1: for every audio input of duration `D` and whichever strategy
`segment_audio` dispatches to (silero, webrtc, or fixed), every returned
span `(start, end)` satisfies `0 ≤ start < end ≤ D`, and the returned
spans are pairwise non-overlapping and sorted by start.  The configured
minimum and maximum speech durations are positive (their defaults are
0.5 and 30.0), and the raw spans delivered by the external Silero model,
when its call succeeds, are in-range and ordered — the code applies no
clipping or sorting of its own to them. -/
theorem spec_c1_segment_audio_spans_wf (method : String) (minS maxS : ℚ)
    (audioLen sample_rate : ℕ) (model : Except PyError (List (ℚ × ℚ)))
    (avail haveVad : Bool) (classifier : Except PyError (ℕ → Bool))
    (hmin : 0 < minS) (hmax : 0 < maxS)
    (hmodel : ∀ ts, model = .ok ts →
      (∀ p ∈ ts, 0 ≤ p.1 ∧ p.1 ≤ p.2 ∧ p.2 ≤ (audioLen : ℚ) / (sample_rate : ℚ)) ∧
      List.Chain' (fun p q : ℚ × ℚ => p.2 ≤ q.1) ts) :
    SpansWF ((audioLen : ℚ) / (sample_rate : ℚ))
      (segment_audio method minS maxS audioLen sample_rate model avail haveVad classifier) := by
  unfold segment_audio
  by_cases hm : method = "silero"
  · rw [if_pos hm]
    unfold segment_silero
    cases model with
    | ok ts =>
      obtain ⟨hb, hch⟩ := hmodel ts rfl
      have h := silero_process_wf minS maxS ((audioLen : ℚ) / (sample_rate : ℚ))
        hmin hmax ts hb hch
      exact spansWF_of_chain _ _ h.1 h.2.1
    | error e => exact segment_fixed_wf _ _ _ hmax
  · rw [if_neg hm]
    by_cases hw : method = "webrtc"
    · rw [if_pos hw]
      cases avail with
      | false =>
        simp only [segment_webrtc, Bool.not_false, Bool.true_or, if_true]
        exact segment_fixed_wf _ _ _ hmax
      | true =>
        cases haveVad with
        | false =>
          simp only [segment_webrtc, Bool.not_false, Bool.not_true, Bool.or_true, if_true]
          exact segment_fixed_wf _ _ _ hmax
        | true =>
          simp only [segment_webrtc, Bool.not_true, Bool.or_self, Bool.false_or]
          cases classifier with
          | ok isSp =>
            simpa using segment_webrtc_loop_wf audioLen sample_rate minS hmin isSp
          | error e => simpa using segment_fixed_wf audioLen sample_rate maxS hmax
    · rw [if_neg hw]
      exact segment_fixed_wf _ _ _ hmax

/-- Witness for C1 at a concrete input: a 12-second audio at 16 kHz whose
Silero model call raises, with default-like positive durations. -/
theorem spec_c1_segment_audio_spans_wf_witness :
    SpansWF ((192000 : ℚ) / (16000 : ℚ))
      (segment_audio "silero" (1/2) 30 192000 16000
        (.error (.runtimeError "model failure")) true true
        (.error (.runtimeError "vad failure"))) :=
  spec_c1_segment_audio_spans_wf "silero" (1/2) 30 192000 16000
    (.error (.runtimeError "model failure")) true true
    (.error (.runtimeError "vad failure"))
    (by norm_num) (by norm_num) (fun ts h => nomatch h)

/-- C9: the fixed-window strategy is total and non-empty — for every
audio of positive duration `D` it returns at least one span, the spans
tile `[0, D]` exactly in windows of `min max_speech_duration 10` seconds
with only the final one possibly shorter, and a 12-second input at
16 kHz with `max_speech_duration = 10` yields exactly
`[(0, 10), (10, 12)]`. -/
theorem spec_c9_segment_fixed_total (audioLen sample_rate : ℕ) (maxS : ℚ)
    (hlen : 0 < audioLen) (hsr : 0 < sample_rate) (hmax : 0 < maxS) :
    segment_fixed audioLen sample_rate maxS ≠ [] ∧
    Covers 0 ((audioLen : ℚ) / (sample_rate : ℚ)) (segment_fixed audioLen sample_rate maxS) ∧
    WindowsOf (min maxS 10) (segment_fixed audioLen sample_rate maxS) ∧
    segment_fixed 192000 16000 10 = [(0, 10), (10, 12)] := by
  have hD : (0 : ℚ) < (audioLen : ℚ) / (sample_rate : ℚ) :=
    div_pos (by exact_mod_cast hlen) (by exact_mod_cast hsr)
  have hL : 0 < min maxS 10 := lt_min hmax (by norm_num)
  have hfix : segment_fixed audioLen sample_rate maxS =
      chunkLoop (min maxS 10) ((audioLen : ℚ) / (sample_rate : ℚ)) 0
        (chunkFuel (min maxS 10) 0 ((audioLen : ℚ) / (sample_rate : ℚ))) := rfl
  have hcov := chunkFuel_covers (min maxS 10) 0 ((audioLen : ℚ) / (sample_rate : ℚ))
    hL (le_of_lt hD)
  have hconc : segment_fixed 192000 16000 10 = [(0, 10), (10, 12)] := by
    have h0 : segment_fixed 192000 16000 10 =
        chunkLoop (min (10 : ℚ) 10) ((192000 : ℚ) / (16000 : ℚ)) 0
          (chunkFuel (min (10 : ℚ) 10) 0 ((192000 : ℚ) / (16000 : ℚ))) := rfl
    have h12 : ((192000 : ℚ) / (16000 : ℚ)) = 12 := by norm_num
    rw [h0, min_self, h12]
    have hf : chunkFuel (10 : ℚ) 0 12 = 3 := by
      unfold chunkFuel
      have hceil : ⌈((12 : ℚ) - 0) / 10⌉ = 2 := by
        rw [Int.ceil_eq_iff]
        norm_num
      rw [hceil]
      rfl
    rw [hf]
    norm_num [chunkLoop]
  refine ⟨?_, ?_, ?_, hconc⟩
  · intro hnil
    rw [hfix] at hnil
    rw [hnil] at hcov
    rw [show Covers 0 ((audioLen : ℚ) / (sample_rate : ℚ)) [] =
      (0 = (audioLen : ℚ) / (sample_rate : ℚ)) from rfl] at hcov
    linarith
  · rw [hfix]
    exact hcov
  · rw [hfix]
    exact chunkLoop_windows _ _ _ _

/-- Witness for C9 at the concrete 12-second input of the claim. -/
theorem spec_c9_segment_fixed_total_witness :
    segment_fixed 192000 16000 10 ≠ [] ∧
    Covers 0 ((192000 : ℚ) / (16000 : ℚ)) (segment_fixed 192000 16000 10) := by
  have h := spec_c9_segment_fixed_total 192000 16000 10
    (by norm_num) (by norm_num) (by norm_num)
  exact ⟨h.1, h.2.1⟩

/-- C7: the segmenter fallback policy — a Silero initialization failure
degrades construction to the WebRTC strategy; WebRTC unavailability or
initialization failure degrades it to fixed; and a runtime error inside
the silero or webrtc segmentation (or an unavailable webrtc VAD object)
makes that one call return the fixed-window result, so `segment_audio`
always returns a plain span list and never propagates an exception. -/
theorem spec_c7_vad_fallback (env : VADEnv) (minS maxS : ℚ)
    (audioLen sample_rate : ℕ) (e e2 : PyError)
    (classifier : Except PyError (ℕ → Bool)) :
    (env.sileroLoadOk = false → init_vad "silero" env = .ok (init_webrtc_vad env)) ∧
    (env.webrtcAvailable = false ∨ env.webrtcInitOk = false →
      init_webrtc_vad env = "fixed") ∧
    (segment_silero minS maxS audioLen sample_rate (.error e) =
      segment_fixed audioLen sample_rate maxS) ∧
    (segment_webrtc minS maxS audioLen sample_rate true true (.error e2) =
      segment_fixed audioLen sample_rate maxS) ∧
    (∀ available haveVad : Bool, available = false ∨ haveVad = false →
      segment_webrtc minS maxS audioLen sample_rate available haveVad classifier =
        segment_fixed audioLen sample_rate maxS) := by
  refine ⟨?_, ?_, rfl, rfl, ?_⟩
  · intro h
    simp [init_vad, h]
  · intro h
    rcases h with h | h
    · simp [init_webrtc_vad, h]
    · cases hA : env.webrtcAvailable <;> simp [init_webrtc_vad, h, hA]
  · intro available haveVad h
    rcases h with h | h <;> subst h <;> simp [segment_webrtc]

/-- Witness for C7: one environment where Silero fails to load and
webrtcvad is missing, plus one erroring silero segmentation call. -/
theorem spec_c7_vad_fallback_witness :
    init_vad "silero" ⟨false, false, true⟩ = .ok (init_webrtc_vad ⟨false, false, true⟩) ∧
    init_webrtc_vad ⟨false, false, true⟩ = "fixed" ∧
    segment_silero 1 2 16000 16000 (.error (.runtimeError "fail")) =
      segment_fixed 16000 16000 2 := by
  have h := spec_c7_vad_fallback ⟨false, false, true⟩ 1 2 16000 16000
    (.runtimeError "fail") (.runtimeError "other") (.error (.runtimeError "third"))
  exact ⟨h.1 rfl, h.2.1 (Or.inl rfl), h.2.2.1⟩

/-! ## Serializer validation lemmas -/

theorem fix_segment_times_fields (s : SubtitleSegment) :
    (fix_segment_times s).text = s.text ∧ (fix_segment_times s).index = s.index ∧
    (fix_segment_times s).translation = s.translation ∧
    0 ≤ (fix_segment_times s).start ∧
    (fix_segment_times s).start < (fix_segment_times s).«end» := by
  simp only [fix_segment_times]
  split_ifs with h1 h2 h2
  · refine ⟨rfl, rfl, rfl, le_rfl, ?_⟩
    show (0 : ℚ) < 0 + 1
    norm_num
  · refine ⟨rfl, rfl, rfl, le_rfl, ?_⟩
    show (0 : ℚ) < s.«end»
    exact not_le.mp h2
  · refine ⟨rfl, rfl, rfl, not_lt.mp h1, ?_⟩
    show s.start < s.start + 1
    linarith
  · exact ⟨rfl, rfl, rfl, not_lt.mp h1, not_le.mp h2⟩

theorem clamp_segment_duration_fields (s : SubtitleSegment) :
    (clamp_segment_duration s).text = s.text ∧ (clamp_segment_duration s).index = s.index ∧
    (clamp_segment_duration s).translation = s.translation ∧
    (clamp_segment_duration s).start = s.start ∧
    (clamp_segment_duration s).«end» - (clamp_segment_duration s).start ≤ 10 ∧
    (s.start < s.«end» → (clamp_segment_duration s).start < (clamp_segment_duration s).«end») := by
  unfold clamp_segment_duration
  by_cases h : 10 < s.«end» - s.start
  · rw [if_pos h]
    refine ⟨rfl, rfl, rfl, rfl, by norm_num, fun _ => by norm_num⟩
  · rw [if_neg h]
    push_neg at h
    exact ⟨rfl, rfl, rfl, rfl, h, fun hlt => hlt⟩

theorem fix_segment_times_fixpoint (s : SubtitleSegment)
    (h1 : 0 ≤ s.start) (h2 : s.start < s.«end») : fix_segment_times s = s := by
  unfold fix_segment_times
  rw [if_neg (not_lt.mpr h1), if_neg (not_le.mpr h2)]

theorem clamp_segment_duration_fixpoint (s : SubtitleSegment)
    (h : s.«end» - s.start ≤ 10) : clamp_segment_duration s = s := by
  unfold clamp_segment_duration
  rw [if_neg (not_lt.mpr h)]

theorem validate_segments_wf :
    ∀ (l : List SubtitleSegment), ∀ s ∈ validate_segments l,
      0 ≤ s.start ∧ s.start < s.«end» ∧ s.«end» - s.start ≤ 10 ∧ pyStrip s.text ≠ "" := by
  intro l
  induction l with
  | nil => intro s hs; simp [validate_segments] at hs
  | cons a rest ih =>
    intro s hs
    simp only [validate_segments] at hs
    by_cases ht : pyStrip (fix_segment_times a).text = ""
    · rw [if_pos ht] at hs
      exact ih s hs
    · rw [if_neg ht] at hs
      rcases List.mem_cons.mp hs with rfl | hs
      · have hf := fix_segment_times_fields a
        have hc := clamp_segment_duration_fields (fix_segment_times a)
        refine ⟨?_, hc.2.2.2.2.2 hf.2.2.2.2, hc.2.2.2.2.1, ?_⟩
        · rw [hc.2.2.2.1]
          exact hf.2.2.2.1
        · rw [hc.1]
          exact ht
      · exact ih s hs

/-- C3: serializer validation is idempotent — re-running
`validate_segments` on its own output changes nothing. -/
theorem spec_c3_validate_idempotent (l : List SubtitleSegment) :
    validate_segments (validate_segments l) = validate_segments l := by
  induction l with
  | nil => rfl
  | cons a rest ih =>
    simp only [validate_segments]
    by_cases ht : pyStrip (fix_segment_times a).text = ""
    · rw [if_pos ht]
      exact ih
    · rw [if_neg ht]
      have hf := fix_segment_times_fields a
      have hc := clamp_segment_duration_fields (fix_segment_times a)
      have hgood0 : 0 ≤ (clamp_segment_duration (fix_segment_times a)).start := by
        rw [hc.2.2.2.1]; exact hf.2.2.2.1
      have hgood1 := hc.2.2.2.2.2 hf.2.2.2.2
      show validate_segments (clamp_segment_duration (fix_segment_times a) :: validate_segments rest) =
        clamp_segment_duration (fix_segment_times a) :: validate_segments rest
      simp only [validate_segments]
      rw [fix_segment_times_fixpoint _ hgood0 hgood1]
      have ht2 : pyStrip (clamp_segment_duration (fix_segment_times a)).text ≠ "" := by
        rw [hc.1]; exact ht
      rw [if_neg ht2]
      rw [clamp_segment_duration_fixpoint _ hc.2.2.2.2.1]
      rw [ih]

/-- C2 as stated is false on the code: the renderers do not apply
`validate_segments` first.  At the single segment
`index 1, start 5, end 3, text "x"` the SRT renderer emits the segment
with its inverted timestamps unchanged, while rendering the validated
list would emit the repaired `end = 6`. -/
theorem spec_c2_counterexample :
    generate_srt_subtitles false
        [{ index := 1, start := 5, «end» := 3, text := "x" }] ≠
      generate_srt_subtitles false
        (validate_segments [{ index := 1, start := 5, «end» := 3, text := "x" }]) := by
  have hx : pyStrip "x" ≠ "" := by decide
  have h2 : validate_segments [({ index := 1, start := 5, «end» := 3, text := "x" } : SubtitleSegment)] =
      [{ index := 1, start := 5, «end» := 6, text := "x" }] := by
    norm_num [validate_segments, fix_segment_times, clamp_segment_duration, hx]
  rw [h2]
  norm_num [generate_srt_subtitles, renderer_text, pyTruthy, hx, SrtSubtitle.mk.injEq]

theorem generate_srt_subtitles_eq_filterMap (use_translation : Bool)
    (l : List SubtitleSegment) :
    generate_srt_subtitles use_translation l = l.filterMap (fun s =>
      if pyStrip (renderer_text use_translation s) = "" then none
      else some { index := s.index, start := s.start, «end» := s.«end»,
                  content := pyStrip (renderer_text use_translation s) }) := by
  induction l with
  | nil => rfl
  | cons a rest ih =>
    simp only [generate_srt_subtitles, List.filterMap_cons]
    by_cases ht : pyStrip (renderer_text use_translation a) = ""
    · simp [ht, ih]
    · simp [ht, ih]

theorem generate_vtt_cues_eq_filterMap (use_translation : Bool)
    (l : List SubtitleSegment) :
    generate_vtt_cues use_translation l = l.filterMap (fun s =>
      if pyStrip (renderer_text use_translation s) = "" then none
      else some { start := s.start, «end» := s.«end»,
                  content := pyStrip (renderer_text use_translation s) }) := by
  induction l with
  | nil => rfl
  | cons a rest ih =>
    simp only [generate_vtt_cues, List.filterMap_cons]
    by_cases ht : pyStrip (renderer_text use_translation a) = ""
    · simp [ht, ih]
    · simp [ht, ih]

theorem generate_ass_dialogues_eq_filterMap (use_translation : Bool)
    (l : List SubtitleSegment) :
    generate_ass_dialogues use_translation l = l.filterMap (fun s =>
      if pyStrip (renderer_text use_translation s) = "" then none
      else some { start := s.start, «end» := s.«end»,
                  content := pyStrip (renderer_text use_translation s) }) := by
  induction l with
  | nil => rfl
  | cons a rest ih =>
    simp only [generate_ass_dialogues, List.filterMap_cons]
    by_cases ht : pyStrip (renderer_text use_translation a) = ""
    · simp [ht, ih]
    · simp [ht, ih]

/-- C2 amended: the renderers do not invoke `validate_segments`.  Each
of the three renderers (SRT, VTT, ASS) is exactly the pass that drops
the segments whose chosen text is empty after stripping and renders
every remaining segment with its index and timestamps unchanged — so a
segment with `end ≤ start` or `start < 0` is rendered as-is.  The
repairs of the claim (clamping a negative start to 0 and rewriting
`end ≤ start` to `end = start + 1`, plus the duration cap) are performed
only by the separate `validate_segments` pass, whose output always
satisfies them. -/
theorem spec_c2_renderer_without_validation (use_translation : Bool)
    (l : List SubtitleSegment) :
    (generate_srt_subtitles use_translation l = l.filterMap (fun s =>
      if pyStrip (renderer_text use_translation s) = "" then none
      else some { index := s.index, start := s.start, «end» := s.«end»,
                  content := pyStrip (renderer_text use_translation s) })) ∧
    (generate_vtt_cues use_translation l = l.filterMap (fun s =>
      if pyStrip (renderer_text use_translation s) = "" then none
      else some { start := s.start, «end» := s.«end»,
                  content := pyStrip (renderer_text use_translation s) })) ∧
    (generate_ass_dialogues use_translation l = l.filterMap (fun s =>
      if pyStrip (renderer_text use_translation s) = "" then none
      else some { start := s.start, «end» := s.«end»,
                  content := pyStrip (renderer_text use_translation s) })) ∧
    (∀ s ∈ validate_segments l,
      0 ≤ s.start ∧ s.start < s.«end» ∧ s.«end» - s.start ≤ 10 ∧ pyStrip s.text ≠ "") :=
  ⟨generate_srt_subtitles_eq_filterMap use_translation l,
   generate_vtt_cues_eq_filterMap use_translation l,
   generate_ass_dialogues_eq_filterMap use_translation l,
   validate_segments_wf l⟩

/-- Witness for the amended C2: the repaired segment produced by
validating the counterexample input satisfies the validation
invariants. -/
theorem spec_c2_renderer_without_validation_witness :
    0 ≤ ({ index := 1, start := 5, «end» := 6, text := "x" } : SubtitleSegment).start ∧
    ({ index := 1, start := 5, «end» := 6, text := "x" } : SubtitleSegment).start <
      ({ index := 1, start := 5, «end» := 6, text := "x" } : SubtitleSegment).«end» ∧
    ({ index := 1, start := 5, «end» := 6, text := "x" } : SubtitleSegment).«end» -
      ({ index := 1, start := 5, «end» := 6, text := "x" } : SubtitleSegment).start ≤ 10 ∧
    pyStrip ({ index := 1, start := 5, «end» := 6, text := "x" } : SubtitleSegment).text ≠ "" := by
  have hx : pyStrip "x" ≠ "" := by decide
  have hmem : ({ index := 1, start := 5, «end» := 6, text := "x" } : SubtitleSegment) ∈
      validate_segments [({ index := 1, start := 5, «end» := 3, text := "x" } : SubtitleSegment)] := by
    have h2 : validate_segments
        [({ index := 1, start := 5, «end» := 3, text := "x" } : SubtitleSegment)] =
        [{ index := 1, start := 5, «end» := 6, text := "x" }] := by
      norm_num [validate_segments, fix_segment_times, clamp_segment_duration, hx]
    rw [h2]
    exact List.mem_singleton.mpr rfl
  exact (spec_c2_renderer_without_validation false
    [{ index := 1, start := 5, «end» := 3, text := "x" }]).2.2.2 _ hmem

/-! ## Claim theorems for the reconciler and configuration -/

theorem create_subtitle_text_eq_spec (cfg : PipelineConfig) (seg : TranscriptSegment) :
    create_subtitle_text cfg seg = final_text_spec cfg seg := by
  cases htr : seg.translated_text with
  | none =>
    by_cases hlab : (cfg.add_language_labels && cfg.multilingual_detection) = true
    · simp [create_subtitle_text, final_text_spec, htr, hlab, pyTruthy]
    · simp [create_subtitle_text, final_text_spec, htr, hlab, pyTruthy]
  | some t =>
    by_cases hlab : (cfg.add_language_labels && cfg.multilingual_detection) = true
    · by_cases hte : t.isEmpty
      · simp [create_subtitle_text, final_text_spec, htr, hlab, hte, pyTruthy]
      · by_cases htg : pyTruthy cfg.target_language
        · simp [create_subtitle_text, final_text_spec, htr, hlab, hte, htg, pyTruthy]
        · simp [create_subtitle_text, final_text_spec, htr, hlab, hte, htg, pyTruthy]
    · simp [create_subtitle_text, final_text_spec, htr, hlab, pyTruthy]

/-- C4: the final display text follows the claimed priority chain — the
code's computation equals the spec-side chain `final_text_spec`; under
preserve-original mode (and not bilingual) a segment already in the
target language always shows the (possibly label-prefixed) original and
never the translation; and the bilingual scenario "hello" translated to
"bonjour" yields the two-line text. -/
theorem spec_c4_final_text_priority (cfg : PipelineConfig) (seg : TranscriptSegment) :
    create_subtitle_text cfg seg = final_text_spec cfg seg ∧
    (cfg.preserve_original_languages = true → cfg.bilingual_subtitles = false →
      cfg.target_language = some seg.language →
      create_subtitle_text cfg seg =
        (if cfg.add_language_labels && cfg.multilingual_detection then
          "[" ++ seg.language.toUpper ++ "] " ++ seg.text
        else seg.text)) ∧
    create_subtitle_text
      { bilingual_subtitles := true, target_language := some "fr" }
      { id := 1, start := 0, «end» := 1, text := "hello", language := "en",
        translated_text := some "bonjour" } = "hello
bonjour" := by
  refine ⟨create_subtitle_text_eq_spec cfg seg, ?_, ?_⟩
  · intro hpre hbil htgt
    rw [create_subtitle_text_eq_spec]
    cases htr : seg.translated_text with
    | none =>
      simp [final_text_spec, htr, hbil, pyTruthy]
    | some t =>
      simp only [final_text_spec, htr, hbil, Bool.false_and, Bool.and_true, htgt]
      split_ifs <;> simp_all
  · simp [create_subtitle_text, pyTruthy]
    decide

/-- Witness for C4: a preserve-original configuration whose segment is
already in the target language keeps its original text. -/
theorem spec_c4_final_text_priority_witness :
    create_subtitle_text
      { preserve_original_languages := true, target_language := some "en" }
      { id := 1, start := 0, «end» := 1, text := "hello", language := "en",
        translated_text := some "hola" } = "hello" := by
  have h := (spec_c4_final_text_priority
    { preserve_original_languages := true, target_language := some "en" }
    { id := 1, start := 0, «end» := 1, text := "hello", language := "en",
      translated_text := some "hola" }).2.1 rfl rfl rfl
  simpa using h

/-- C5 as stated is false on the code: `__post_init__` forces
`source_language` to "multilingual" only when it was "auto".  With
`multilingual_detection = true` and an explicit `source_language = "en"`
the constructed config keeps "en". -/
theorem spec_c5_counterexample :
    ({ multilingual_detection := true, source_language := "en" } : PipelineConfig).multilingual_detection = true ∧
    (pipelineConfig_post_init
      { multilingual_detection := true, source_language := "en" }).source_language ≠ "multilingual" := by
  constructor
  · rfl
  · simp [pipelineConfig_post_init, pyTruthy]

/-- C5 amended: config resolution at construction time establishes the
multilingual invariants — when `multilingual_detection` is set and
`source_language` is "auto", it is forced to "multilingual"; when
additionally no (truthy) `target_language` is set,
`preserve_original_languages` is forced to true; hence every constructed
`PipelineConfig` satisfies that `multilingual_detection` together with
no `target_language` implies `preserve_original_languages`. -/
theorem spec_c5_post_init_resolution (c : PipelineConfig) :
    (c.multilingual_detection = true → c.source_language = "auto" →
      (pipelineConfig_post_init c).source_language = "multilingual") ∧
    (c.multilingual_detection = true → pyTruthy c.target_language = false →
      (pipelineConfig_post_init c).preserve_original_languages = true) ∧
    ((pipelineConfig_post_init c).multilingual_detection = true →
      pyTruthy (pipelineConfig_post_init c).target_language = false →
      (pipelineConfig_post_init c).preserve_original_languages = true) := by
  by_cases hm : c.multilingual_detection = true <;>
    by_cases hs : c.source_language = "auto" <;>
      by_cases ht : pyTruthy c.target_language = true <;>
        simp [pipelineConfig_post_init, hm, hs, ht]

/-- Witness for the amended C5 at a concrete multilingual config with no
target language. -/
theorem spec_c5_post_init_resolution_witness :
    (pipelineConfig_post_init
      ({ multilingual_detection := true } : PipelineConfig)).preserve_original_languages = true :=
  (spec_c5_post_init_resolution { multilingual_detection := true }).2.1 rfl rfl

/-- C6: in the translation stage, for a segment whose source language
differs from the target language, a failing translation call is absorbed
— the segment keeps its original text, timing, id and language, and when
`preserve_original_languages` is set its `translated_text` field is set
to the original text. -/
theorem spec_c6_translation_failure_absorbed (multi preserve : Bool)
    (target detected : String) (e : PyError) (seg : TranscriptSegment)
    (hdiff : (if multi then seg.language else detected) ≠ target) :
    (translate_segment multi preserve target detected (.error e) seg).text = seg.text ∧
    (translate_segment multi preserve target detected (.error e) seg).start = seg.start ∧
    (translate_segment multi preserve target detected (.error e) seg).«end» = seg.«end» ∧
    (translate_segment multi preserve target detected (.error e) seg).language = seg.language ∧
    (translate_segment multi preserve target detected (.error e) seg).id = seg.id ∧
    (preserve = true →
      (translate_segment multi preserve target detected (.error e) seg).translated_text =
        some seg.text) := by
  cases preserve <;> simp [translate_segment, hdiff]

/-- Witness for C6: an English segment with French target whose
translator raises. -/
theorem spec_c6_translation_failure_absorbed_witness :
    (translate_segment false true "fr" "en" (.error (.runtimeError "no language pack"))
      { id := 1, start := 0, «end» := 2, text := "hello", language := "en" }).text = "hello" ∧
    (translate_segment false true "fr" "en" (.error (.runtimeError "no language pack"))
      { id := 1, start := 0, «end» := 2, text := "hello", language := "en" }).translated_text =
      some "hello" := by
  have h := spec_c6_translation_failure_absorbed false true "fr" "en"
    (.runtimeError "no language pack")
    { id := 1, start := 0, «end» := 2, text := "hello", language := "en" }
    (by simp)
  exact ⟨h.1, h.2.2.2.2.2 rfl⟩

/-! ## Claim theorems for the orchestrator -/

/-- C8: `process_file` never raises — it is a total function into
`ProcessingResult` — and on any fatal error (the input file missing, or
any exception escaping the pipeline body) it returns a failure result
carrying the exception message, with `success = false` and an empty
`output_files` list. -/
theorem spec_c8_process_file_absorbs (input_file : String) (inputExists : Bool)
    (run : Except PyError ProcessingResult) (elapsed : ℚ) :
    (inputExists = false →
      (process_file input_file inputExists run elapsed).success = false ∧
      (process_file input_file inputExists run elapsed).output_files = [] ∧
      (process_file input_file inputExists run elapsed).error_message =
        some ("Arquivo não encontrado: " ++ input_file)) ∧
    (∀ e, inputExists = true → run = .error e →
      (process_file input_file inputExists run elapsed).success = false ∧
      (process_file input_file inputExists run elapsed).output_files = [] ∧
      (process_file input_file inputExists run elapsed).error_message = some (pyErrStr e)) := by
  constructor
  · intro h
    subst h
    simp [process_file, pyErrStr]
  · intro e h hrun
    subst h
    subst hrun
    simp [process_file]

/-- Witness for C8: a missing input file yields the structured failure
result. -/
theorem spec_c8_process_file_absorbs_witness :
    (process_file "clip.mp4" false (.ok { success := true }) 1).success = false ∧
    (process_file "clip.mp4" false (.ok { success := true }) 1).output_files = [] ∧
    (process_file "clip.mp4" false (.ok { success := true }) 1).error_message =
      some ("Arquivo não encontrado: " ++ "clip.mp4") :=
  (spec_c8_process_file_absorbs "clip.mp4" false (.ok { success := true }) 1).1 rfl

/-- C10: for every config, constructing `MotherLinePipeline` raises
`RuntimeError` — `_initialize_components` calls `VADSegmenter` with a
`device` keyword that `VADSegmenter.__init__` does not accept, the
`TypeError` is caught and re-raised as `RuntimeError`, and the same
wrapping applies if the audio extractor fails first, so construction
never succeeds. -/
theorem spec_c10_pipeline_init_always_raises (cfg : PipelineConfig)
    (extractorInit rest : Except PyError Unit) :
    ∃ msg, motherLinePipeline_init cfg extractorInit rest = .error (.runtimeError msg) := by
  cases extractorInit with
  | error e => exact ⟨"Falha na inicialização do pipeline: " ++ pyErrStr e, rfl⟩
  | ok u =>
    refine ⟨"Falha na inicialização do pipeline: " ++
      pyErrStr (.typeError ("__init__ got an unexpected keyword argument " ++ "device")), ?_⟩
    rfl
